import Mathlib

/-!
# Verification of the Cradle_Selrena perceptual core

A shallow embedding of the Python source of the repository:

* `src/cradle/selrena/synapse/event_bus.py` (`EventBus.publish`)
* `src/cradle/selrena/synapse/reflex.py` (`ReflexController`)
* `src/cradle/selrena/synapse/sensory_cortex.py` (`SensoryCortex`)
* `src/cradle/selrena/vessel/perception/audio/stream.py` (`AudioStream`)
* `src/cradle/core/lifecycle.py` (`LifecycleManager`)

Timestamps (Python floats obtained from `time.time()`) are modelled as `ℚ`,
audio sample values (float32 / int16) as `ℚ` / `ℤ`; text as `String` /
`List Char`.
-/

/-! ## Text utilities: `str.lower` and the keyword matchers

`ReflexController._match_keywords` and `SensoryCortex._match_keywords` are
textually identical:

```python
def _match_keywords(self, text, zh_list, en_list):
    text_clean = text.lower()
    if any(kw in text_clean for kw in zh_list):
        return True
    for kw in en_list:
        if re.search(r'\b' + re.escape(kw) + r'\b', text_clean):
            return True
    return False
```
-/

/-- ASCII case folding of one character, as Python `str.lower` acts on the
alphabet actually used by the program (ASCII letters, digits, CJK ideographs,
punctuation): `A`–`Z` map to `a`–`z`, everything else is unchanged. -/
def lowerChar (c : Char) : Char :=
  if 65 ≤ c.toNat ∧ c.toNat ≤ 90 then Char.ofNat (c.toNat + 32) else c

/-- `text.lower()` on the character list of a string. -/
def lowerText (t : List Char) : List Char :=
  t.map lowerChar

/-- `kw` is a prefix of `t` (character-by-character comparison). -/
def isPrefixList : List Char → List Char → Bool
  | [], _ => true
  | _ :: _, [] => false
  | a :: kw, b :: t => a = b && isPrefixList kw t

/-- Python's substring containment `kw in t`. -/
def hasSub (kw : List Char) : List Char → Bool
  | [] => isPrefixList kw []
  | c :: rest => isPrefixList kw (c :: rest) || hasSub kw rest

/-- A word character in the sense of Python's regex `\w`, restricted to the
alphabet the program uses: ASCII alphanumerics, underscore, and CJK unified
ideographs (which are word characters for `re` on `str`). -/
def isWordChar (c : Char) : Bool :=
  c.isAlphanum || c = '_' || (0x4e00 ≤ c.toNat && c.toNat ≤ 0x9fff)

/-- The left context of a candidate match site is a word boundary:
either the start of the string or a non-word character. -/
def boundaryLeft : Option Char → Bool
  | none => true
  | some c => !isWordChar c

/-- The right context is a word boundary: end of string or a non-word char. -/
def boundaryRight : List Char → Bool
  | [] => true
  | c :: _ => !isWordChar c

/-- `kw` occurs at the head of `t` with a word boundary after it. -/
def boundaryHere (kw t : List Char) : Bool :=
  isPrefixList kw t && boundaryRight (t.drop kw.length)

/-- Scan of `t` for a `\b kw \b` match site; `prev` is the character just
before the current position (`none` at the start of the string). -/
def boundarySearchAux (kw : List Char) (prev : Option Char) : List Char → Bool
  | [] => boundaryLeft prev && boundaryHere kw []
  | c :: rest =>
      (boundaryLeft prev && boundaryHere kw (c :: rest))
      || boundarySearchAux kw (some c) rest

/-- Python `re.search(r'\b' + re.escape(kw) + r'\b', t)`, as a Boolean. -/
def boundarySearch (kw t : List Char) : Bool :=
  boundarySearchAux kw none t

/-- `_match_keywords(text, zh_list, en_list)` (shared verbatim by
`ReflexController` and `SensoryCortex`): lower the text, then test the CJK
list by substring containment and the Latin list by word-boundary search. -/
def matchKeywords (t : List Char) (zhList enList : List String) : Bool :=
  let tc := lowerText t
  zhList.any (fun kw => hasSub kw.data tc)
  || enList.any (fun kw => boundarySearch kw.data tc)

/-! ## Keyword lists (hard-coded in the two constructors) -/

/-- `ReflexController.wake_keywords_zh`. -/
def reflexWakeZh : List String :=
  ["月见", "赛琳娜", "色瑞娜", "瑟瑞娜", "塞琳娜", "赛琳", "赛瑞娜", "萨琳娜", "你好"]

/-- `ReflexController.wake_keywords_en`. -/
def reflexWakeEn : List String :=
  ["selrena", "serena", "salrena", "serina", "selina", "celina", "hello", "hi", "hey"]

/-- `ReflexController.exit_keywords_zh`. -/
def reflexExitZh : List String := ["退出", "关闭", "休眠"]

/-- `ReflexController.exit_keywords_en`. -/
def reflexExitEn : List String := ["shutdown", "exit", "sleep", "goodbye", "bye"]

/-- `ReflexController.stop_keywords` (a single mixed list). -/
def reflexStopKeywords : List String := ["别说了", "闭嘴", "停下", "stop", "shutup", "quiet"]

/-- `SensoryCortex.wake_keywords_zh` (adds `小月` to the reflex list). -/
def cortexWakeZh : List String :=
  ["月见", "小月", "赛琳娜", "色瑞娜", "瑟瑞娜", "塞琳娜", "赛琳", "赛瑞娜", "萨琳娜", "你好"]

/-- `SensoryCortex.wake_keywords_en` (same as the reflex list). -/
def cortexWakeEn : List String :=
  ["selrena", "serena", "salrena", "serina", "selina", "celina", "hello", "hi", "hey"]

/-- The stop-keyword test in `ReflexController.on_audio_transcription`:
`any(w in text for w in self.stop_keywords)` — plain substring containment
for every entry, applied to the already lowered text. -/
def reflexStopMatch (t : List Char) : Bool :=
  reflexStopKeywords.any (fun w => hasSub w.data t)

/-! ## The transcription event and the two synapse handlers -/

/-- The slice of a `perception.audio.transcription` `BaseEvent` that the two
handlers can see: the event's own `timestamp` field and the payload text. -/
structure TranscriptionEvent where
  timestamp : ℚ
  text : String
deriving DecidableEq, Repr

/-- Arousal state held by `ReflexController` (`last_wake_time`, `is_awake`). -/
structure ReflexState where
  last_wake_time : ℚ
  is_awake : Bool
deriving DecidableEq, Repr

/-- Events published by `ReflexController.on_audio_transcription`:
the MUTE `ReflexSignal`, the `system.shutdown` `BaseEvent` (payload
`{"reason": ...}`), and the `state.arousal` `BaseEvent`
(payload `{"is_awake": ...}`). -/
inductive ReflexOut where
  | muteSignal
  | shutdownEvent (reason : String)
  | arousalEvent (is_awake : Bool)
deriving DecidableEq, Repr

/-- `wake_timeout = 30.0`, shared by `ReflexController` and `SensoryCortex`. -/
def wakeTimeout : ℚ := 30

/-- The constructor state: `last_wake_time = 0`, `is_awake = False`. -/
def reflexInit : ReflexState := { last_wake_time := 0, is_awake := false }

/-- `ReflexController.on_audio_transcription`, with `now` standing for
`time.time()`.  Steps of the source, in order: return on empty text; lower
the text once; the stop-keyword check (substring containment, publishes the
MUTE signal, does **not** return); the exit-keyword check via
`_match_keywords` (publishes `system.shutdown` and returns); the arousal
update (wake match refreshes `last_wake_time`, then the timeout comparison
recomputes `is_awake`); finally the `state.arousal` publish.
Returns the new state and the published events in publish order. -/
def ReflexController.onAudioTranscription (st : ReflexState) (now : ℚ)
    (ev : TranscriptionEvent) : ReflexState × List ReflexOut :=
  if ev.text = "" then (st, [])
  else
    let text := lowerText ev.text.data
    let stopOuts : List ReflexOut :=
      if reflexStopMatch text then [.muteSignal] else []
    if matchKeywords text reflexExitZh reflexExitEn then
      (st, stopOuts ++ [.shutdownEvent "voice_command"])
    else
      let hasWake := matchKeywords text reflexWakeZh reflexWakeEn
      let st1 := if hasWake then { last_wake_time := now, is_awake := true } else st
      let awake := decide (now - st1.last_wake_time < wakeTimeout)
      ({ st1 with is_awake := awake }, stopOuts ++ [.arousalEvent awake])

/-- Arousal state held by `SensoryCortex`. -/
structure CortexState where
  last_wake_time : ℚ
  is_awake : Bool
deriving DecidableEq, Repr

/-- The constructor state of `SensoryCortex`. -/
def cortexInit : CortexState := { last_wake_time := 0, is_awake := false }

/-- The `input.user_message` `BaseEvent` that `SensoryCortex` republishes:
payload `{"text": text, "timestamp": current_time, "source": "audio"}` and
envelope `source="SensoryCortex"`. -/
structure UserMessage where
  text : String
  timestamp : ℚ
  payloadSource : String
  source : String
deriving DecidableEq, Repr

/-- `SensoryCortex.on_audio_transcription`, with `now` for `time.time()`.
Source order: return on empty text; wake-keyword match via `_match_keywords`
(refreshes the timer); otherwise the timeout window test against the *old*
`last_wake_time` (inside the window the timer is refreshed too — continuous
keep-alive); if either succeeded, republish the text as `input.user_message`
whose payload timestamp is `current_time` (the event's own `timestamp`
field is never read). -/
def SensoryCortex.onAudioTranscription (st : CortexState) (now : ℚ)
    (ev : TranscriptionEvent) : CortexState × List UserMessage :=
  if ev.text = "" then (st, [])
  else
    let hasWake := matchKeywords ev.text.data cortexWakeZh cortexWakeEn
    if hasWake then
      ({ last_wake_time := now, is_awake := true },
       [{ text := ev.text, timestamp := now, payloadSource := "audio",
          source := "SensoryCortex" }])
    else if now - st.last_wake_time < wakeTimeout then
      ({ last_wake_time := now, is_awake := true },
       [{ text := ev.text, timestamp := now, payloadSource := "audio",
          source := "SensoryCortex" }])
    else
      ({ st with is_awake := false }, [])

/-! ## EventBus.publish

```python
async def publish(self, event):
    ...
    if event_name in self._subscribers:
        callbacks = self._subscribers[event_name]
        tasks = [cb(event) for cb in callbacks]
        await asyncio.gather(*tasks)
```

`asyncio.gather` without `return_exceptions=True` schedules every callback
as a task; a failing task does not cancel its siblings (they keep running on
the loop to their own completion), but the awaited gather re-raises the
first exception, which propagates out of `publish` to the publisher.  There
is no try/except and no logging around the gather. -/

/-- One subscribed handler's behaviour on a given event: the effects
(events it publishes, state it writes, ...) it produces when run to
completion, and the exception it raises, if any. -/
structure HandlerRun (σ ε : Type) where
  out : List σ
  err : Option ε
deriving DecidableEq, Repr

/-- `EventBus.publish` fan-out over the handlers subscribed to the event's
name: every handler runs (gather does not cancel siblings on failure), so
all effects occur; the call itself re-raises the first handler exception,
or returns normally when no handler raised. -/
def EventBus.publish {σ ε : Type} (hs : List (HandlerRun σ ε)) :
    List σ × Except ε Unit :=
  ((hs.map HandlerRun.out).flatten,
   match hs.findSome? HandlerRun.err with
   | some e => Except.error e
   | none => Except.ok ())

/-! ## AudioStream -/

/-- `AudioStream` listening flag (`self.is_listening`). -/
structure AudioState where
  is_listening : Bool
deriving DecidableEq, Repr

/-- Log lines emitted by `AudioStream.start`. -/
inductive StartLog where
  | infoStarted
  | criticalFailed (msg : String)
deriving DecidableEq, Repr

/-- `AudioStream.start`, modelled up to entering the keep-alive loop.
`openResult` is the outcome of constructing and starting the
`sounddevice.InputStream` (`.error e` = the device open raised `e`).
Result: new state, the exception `start` propagates to its caller
(`none` = returns normally), and the log lines emitted.  The whole body is
wrapped in `try/except Exception`: a device-open failure is caught, logged
via `logger.critical`, and `start` returns `None` — `is_listening` is only
set after `stream.start()` succeeded. -/
def AudioStream.start (st : AudioState) (openResult : Except String Unit) :
    AudioState × Option String × List StartLog :=
  if st.is_listening then (st, none, [])
  else
    match openResult with
    | .ok _ => ({ is_listening := true }, none, [.infoStarted])
    | .error e => (st, none, [.criticalFailed e])

/-- Sum of squares of the int16 samples, as a rational
(`np.mean(audio_int16.astype(np.float64)**2)` times the sample count). -/
def sumSq (samples : List ℤ) : ℚ :=
  (samples.map (fun x : ℤ => (x : ℚ) * x)).sum

/-- Peak absolute amplitude `np.max(np.abs(xs))` of a float waveform
(`0` for the empty list). -/
def peakAbs (xs : List ℚ) : ℚ :=
  xs.foldr (fun x acc => max |x| acc) 0

/-- The smart-normalization step of `AudioStream._process_speech` on the
float waveform, with `maxVal = np.max(np.abs(xs))`:

* `maxVal < 0.1`: pure noise, leave unchanged;
* `0.1 ≤ maxVal < 0.5`: scale by `min(0.7 / maxVal, 2.0)`;
* `maxVal ≥ 0.5`: map each sample to `x / maxVal * 0.95`. -/
def normalizeWaveform (xs : List ℚ) : List ℚ :=
  let maxVal := peakAbs xs
  if maxVal < 1/10 then xs
  else if maxVal < 1/2 then
    let scaleFactor := min (7/10 / maxVal) 2
    xs.map (fun x => x * scaleFactor)
  else
    xs.map (fun x => x / maxVal * (19/20))

/-- `AudioStream._process_speech` on a finalized segment of int16 samples
(the byte buffer has `2 *` as many bytes as there are samples).  Ordered
early-exit gates of the source:

1. `len(audio_bytes) < 9600` (`16000 Hz × 2 bytes × 0.3 s`): return, before
   any energy computation;
2. `rms < 800` where `rms = sqrt(mean(int16²))`: return.  Since both sides
   are nonnegative and the mean divides by `len`, this is equivalent to
   `sumSq < 800² * len = 640000 * len`, which is how the test is phrased
   here to keep the model inside `ℚ` (the source computes the square root);
3. otherwise convert to float (`/ 32768`), normalize, and hand the waveform
   to the recognizer.

`none` models the silent drop: the recognizer is never called and no event
is published for the segment; `some w` models the waveform submitted via
`run_coroutine_threadsafe`. -/
def AudioStream.processSpeech (samples : List ℤ) : Option (List ℚ) :=
  if 2 * samples.length < 9600 then none
  else if sumSq samples < 640000 * samples.length then none
  else some (normalizeWaveform (samples.map (fun x : ℤ => (x : ℚ) / 32768)))

/-! ## LifecycleManager -/

/-- A component in the lifecycle registry.  `hasTeardown` models
`hasattr(component, "cleanup") or hasattr(component, "stop")`;
`cleanupErr` is the exception its teardown call raises (`none` = teardown
returns normally). -/
structure Component where
  id : ℕ
  hasTeardown : Bool
  cleanupErr : Option String
deriving DecidableEq, Repr

/-- `LifecycleManager` state: the ordered registry, the `_is_running` flag
and the `_shutdown_event`. -/
structure LMState where
  components : List Component
  is_running : Bool
  shutdown_event : Bool
deriving DecidableEq, Repr

/-- `LifecycleManager.__init__`: empty registry, `_is_running = False`,
`_shutdown_event` not set (the constructor also subscribes
`_on_shutdown_signal` to `system.shutdown`, modelled by
`LifecycleManager.onShutdownSignal` below). -/
def LifecycleManager.initState : LMState :=
  { components := [], is_running := false, shutdown_event := false }

/-- `LifecycleManager.register`: append to the registry only if the
component exposes a `cleanup` or `stop` attribute. -/
def LifecycleManager.register (st : LMState) (c : Component) : LMState :=
  if c.hasTeardown then { st with components := st.components ++ [c] } else st

/-- `LifecycleManager.wait_for_shutdown` entry: sets `_is_running = True`
(then blocks on `_shutdown_event.wait()`). -/
def LifecycleManager.waitForShutdownEntry (st : LMState) : LMState :=
  { st with is_running := true }

/-- One iteration of the shutdown loop for one component, the whole body
wrapped in `try/except Exception as e: logger.error(...)`: the teardown is
invoked and its exception, if any, is caught and logged.  Result: the
component's id and the caught exception. -/
def teardownOne (c : Component) : ℕ × Option String :=
  (c.id, c.cleanupErr)

/-- `LifecycleManager.shutdown`: returns immediately if `_is_running` is
false; otherwise clears `_is_running`, iterates the registry **reversed**
(`for component in reversed(self._components)`), awaiting each teardown in
sequence with per-component exception isolation, and finally sets
`_shutdown_event`.  Result: the new state and the teardown invocations in
execution order. -/
def LifecycleManager.shutdown (st : LMState) : LMState × List (ℕ × Option String) :=
  if st.is_running then
    ({ components := st.components, is_running := false, shutdown_event := true },
     st.components.reverse.map teardownOne)
  else (st, [])

/-- `LifecycleManager._on_shutdown_signal` (the `system.shutdown`
subscriber): logs the reason and awaits `self.shutdown()`. -/
def LifecycleManager.onShutdownSignal (st : LMState) : LMState × List (ℕ × Option String) :=
  LifecycleManager.shutdown st

/-! ## Semantic characterizations of the matchers

`SubOccur` and `BoundaryOccur` state, independently of the scanning code,
what "kw occurs as a substring" and "kw occurs at word boundaries" mean. -/

/-- `kw` occurs somewhere inside `t` (Python `kw in t`). -/
def SubOccur (kw t : List Char) : Prop :=
  ∃ pre post, t = pre ++ kw ++ post

/-- `kw` occurs inside `t` delimited by word boundaries on both sides:
whatever character precedes (resp. follows) the occurrence, if any, is not
a word character. -/
def BoundaryOccur (kw t : List Char) : Prop :=
  ∃ pre post, t = pre ++ kw ++ post
    ∧ (∀ c, pre.getLast? = some c → isWordChar c = false)
    ∧ (∀ c, post.head? = some c → isWordChar c = false)

/-- The character immediately left of the current match site after having
consumed `pre`, when the character before `pre` was `prev`. -/
def leftEdge (prev : Option Char) (pre : List Char) : Option Char :=
  match pre.getLast? with
  | some c => some c
  | none => prev

theorem isPrefixList_iff (kw : List Char) : ∀ t : List Char,
    isPrefixList kw t = true ↔ ∃ post, t = kw ++ post := by
  induction kw with
  | nil => intro t; simp [isPrefixList]
  | cons a kw ih =>
    intro t
    cases t with
    | nil => simp [isPrefixList]
    | cons b t =>
      simp only [isPrefixList, Bool.and_eq_true, decide_eq_true_eq, ih,
        List.cons_append, List.cons.injEq]
      constructor
      · rintro ⟨rfl, post, rfl⟩
        exact ⟨post, rfl, rfl⟩
      · rintro ⟨post, rfl, rfl⟩
        exact ⟨rfl, post, rfl⟩

theorem hasSub_iff (kw : List Char) : ∀ t : List Char,
    hasSub kw t = true ↔ SubOccur kw t := by
  intro t
  induction t with
  | nil =>
    simp only [hasSub, isPrefixList_iff, SubOccur]
    constructor
    · rintro ⟨post, h⟩
      exact ⟨[], post, by simpa using h⟩
    · rintro ⟨pre, post, h⟩
      rcases List.append_eq_nil.mp h.symm with ⟨h1, rfl⟩
      rcases List.append_eq_nil.mp h1 with ⟨rfl, rfl⟩
      exact ⟨[], by simp⟩
  | cons c rest ih =>
    simp only [hasSub, Bool.or_eq_true, isPrefixList_iff, ih, SubOccur]
    constructor
    · rintro (⟨post, h⟩ | ⟨pre, post, rfl⟩)
      · exact ⟨[], post, by simpa using h⟩
      · exact ⟨c :: pre, post, rfl⟩
    · rintro ⟨pre, post, h⟩
      cases pre with
      | nil => exact Or.inl ⟨post, by simpa using h⟩
      | cons d pre =>
        rw [List.cons_append, List.cons_append] at h
        obtain ⟨rfl, h2⟩ := List.cons.inj h
        exact Or.inr ⟨pre, post, h2⟩

theorem boundaryHere_iff (kw t : List Char) :
    boundaryHere kw t = true ↔
      ∃ post, t = kw ++ post ∧ boundaryRight post = true := by
  simp only [boundaryHere, Bool.and_eq_true, isPrefixList_iff]
  constructor
  · rintro ⟨⟨post, rfl⟩, h2⟩
    exact ⟨post, rfl, by simpa [List.drop_left] using h2⟩
  · rintro ⟨post, rfl, h⟩
    exact ⟨⟨post, rfl⟩, by simpa [List.drop_left] using h⟩

theorem leftEdge_cons (prev : Option Char) (c : Char) (pre : List Char) :
    leftEdge prev (c :: pre) = leftEdge (some c) pre := by
  cases pre with
  | nil => rfl
  | cons d pre =>
    rw [leftEdge, List.getLast?_cons_cons]
    cases h : (d :: pre).getLast? with
    | none => simp at h
    | some x => simp [leftEdge, h]

theorem boundarySearchAux_iff (kw : List Char) : ∀ (t : List Char) (prev : Option Char),
    boundarySearchAux kw prev t = true ↔
      ∃ pre post, t = pre ++ kw ++ post
        ∧ boundaryLeft (leftEdge prev pre) = true
        ∧ boundaryRight post = true := by
  intro t
  induction t with
  | nil =>
    intro prev
    simp only [boundarySearchAux, Bool.and_eq_true, boundaryHere_iff]
    constructor
    · rintro ⟨h1, post, h2, h3⟩
      exact ⟨[], post, by simpa using h2, by simpa [leftEdge] using h1, h3⟩
    · rintro ⟨pre, post, h2, h1, h3⟩
      rcases List.append_eq_nil.mp h2.symm with ⟨h4, rfl⟩
      rcases List.append_eq_nil.mp h4 with ⟨rfl, rfl⟩
      exact ⟨by simpa [leftEdge] using h1, [], by simp, h3⟩
  | cons c rest ih =>
    intro prev
    simp only [boundarySearchAux, Bool.or_eq_true, Bool.and_eq_true,
      boundaryHere_iff, ih (some c)]
    constructor
    · rintro (⟨h1, post, h2, h3⟩ | ⟨pre, post, rfl, h1, h3⟩)
      · exact ⟨[], post, by simpa using h2, by simpa [leftEdge] using h1, h3⟩
      · exact ⟨c :: pre, post, rfl, by rwa [leftEdge_cons], h3⟩
    · rintro ⟨pre, post, heq, h1, h3⟩
      cases pre with
      | nil =>
        exact Or.inl ⟨by simpa [leftEdge] using h1, post, by simpa using heq, h3⟩
      | cons d pre =>
        obtain ⟨rfl, h2⟩ := List.cons.inj heq
        exact Or.inr ⟨pre, post, h2, by rwa [leftEdge_cons] at h1, h3⟩

theorem boundaryLeft_leftEdge_none_iff (pre : List Char) :
    boundaryLeft (leftEdge none pre) = true ↔
      ∀ c, pre.getLast? = some c → isWordChar c = false := by
  cases h : pre.getLast? with
  | none => simp [leftEdge, h, boundaryLeft]
  | some x => simp [leftEdge, h, boundaryLeft]

theorem boundaryRight_iff (post : List Char) :
    boundaryRight post = true ↔
      ∀ c, post.head? = some c → isWordChar c = false := by
  cases post with
  | nil => simp [boundaryRight]
  | cons c rest => simp [boundaryRight]

theorem boundarySearch_iff (kw t : List Char) :
    boundarySearch kw t = true ↔ BoundaryOccur kw t := by
  rw [boundarySearch, boundarySearchAux_iff]
  constructor
  · rintro ⟨pre, post, rfl, h1, h3⟩
    exact ⟨pre, post, rfl, (boundaryLeft_leftEdge_none_iff pre).mp h1,
      (boundaryRight_iff post).mp h3⟩
  · rintro ⟨pre, post, rfl, h1, h3⟩
    exact ⟨pre, post, rfl, (boundaryLeft_leftEdge_none_iff pre).mpr h1,
      (boundaryRight_iff post).mpr h3⟩

/-! ## Case-folding lemmas -/

theorem charOfNat_toNat_shift (n : ℕ) (h1 : 65 ≤ n) (h2 : n ≤ 90) :
    (Char.ofNat (n + 32)).toNat = n + 32 := by
  interval_cases n <;> rfl

theorem lowerChar_idem (c : Char) : lowerChar (lowerChar c) = lowerChar c := by
  unfold lowerChar
  by_cases h : 65 ≤ c.toNat ∧ c.toNat ≤ 90
  · rw [if_pos h, charOfNat_toNat_shift c.toNat h.1 h.2, if_neg]
    omega
  · rw [if_neg h, if_neg h]

theorem lowerText_idem (t : List Char) :
    lowerText (lowerText t) = lowerText t := by
  unfold lowerText
  rw [List.map_map]
  exact List.map_congr_left fun c _ => lowerChar_idem c

theorem matchKeywords_lower (t : List Char) (zhList enList : List String) :
    matchKeywords (lowerText t) zhList enList = matchKeywords t zhList enList := by
  unfold matchKeywords
  rw [lowerText_idem]

/-! ## EventBus helper -/

theorem findSomeErr_none_iff {σ ε : Type} (hs : List (HandlerRun σ ε)) :
    hs.findSome? HandlerRun.err = none ↔ ∀ h ∈ hs, h.err = none := by
  induction hs with
  | nil => simp
  | cons h rest ih =>
    cases he : h.err with
    | none => simp [List.findSome?, he, ih]
    | some e => simp [List.findSome?, he]

/-! ## Waveform helpers -/

theorem peakAbs_nonneg (xs : List ℚ) : 0 ≤ peakAbs xs := by
  induction xs with
  | nil => simp [peakAbs]
  | cons x rest ih =>
    simp only [peakAbs, List.foldr_cons] at *
    exact le_trans ih (le_max_right _ _)

theorem peakAbs_map_mul (xs : List ℚ) (c : ℚ) :
    peakAbs (xs.map (fun x => x * c)) = |c| * peakAbs xs := by
  induction xs with
  | nil => simp [peakAbs]
  | cons x rest ih =>
    simp only [peakAbs, List.map_cons, List.foldr_cons] at *
    rw [ih, abs_mul, mul_comm |x| |c|, mul_max_of_nonneg _ _ (abs_nonneg c)]

/-! ## Lifecycle helper -/

theorem foldl_register_flags (comps : List Component) : ∀ st : LMState,
    (comps.foldl LifecycleManager.register st).is_running = st.is_running
    ∧ (comps.foldl LifecycleManager.register st).shutdown_event = st.shutdown_event := by
  induction comps with
  | nil => intro st; exact ⟨rfl, rfl⟩
  | cons c rest ih =>
    intro st
    rw [List.foldl_cons]
    refine ⟨(ih _).1.trans ?_, (ih _).2.trans ?_⟩
    · unfold LifecycleManager.register; split <;> rfl
    · unfold LifecycleManager.register; split <;> rfl

/-! ## Claim theorems -/

/-- C1 (amended): when an event's name has several subscribed handlers, a
handler raising an exception does not prevent its sibling handlers from
running to completion (every handler's effects occur — gather does not
cancel siblings); but `EventBus.publish` returns normally if and only if no
handler raised: a failure is re-raised by the awaited gather and propagates
synchronously to the publisher, with no aggregated logging. -/
theorem eventbus_publish_fanout {σ ε : Type} (hs : List (HandlerRun σ ε)) :
    (EventBus.publish hs).1 = (hs.map HandlerRun.out).flatten
    ∧ ((EventBus.publish hs).2 = Except.ok () ↔ ∀ h ∈ hs, h.err = none) := by
  unfold EventBus.publish
  refine ⟨rfl, ?_⟩
  cases hfind : hs.findSome? HandlerRun.err with
  | none =>
    simpa using (findSomeErr_none_iff hs).mp hfind
  | some e =>
    simp only
    constructor
    · intro h
      simp at h
    · intro hall
      have hnone := (findSomeErr_none_iff hs).mpr hall
      rw [hfind] at hnone
      simp at hnone

/-- C1 counterexample: two handlers subscribed to the same event name, the
first raising `"boom"`.  The sibling still runs to completion (its output
`"b"` is present), but `publish` completes with the error — it does not
return normally to the caller, contradicting the claimed aggregate-and-log
behaviour. -/
theorem eventbus_publish_error_cex :
    (EventBus.publish [({ out := ["a"], err := some "boom" } : HandlerRun String String),
        { out := ["b"], err := none }]).2 = Except.error "boom"
    ∧ (EventBus.publish [({ out := ["a"], err := some "boom" } : HandlerRun String String),
        { out := ["b"], err := none }]).1 = ["a", "b"] :=
  ⟨rfl, rfl⟩

/-- C3 (amended): if opening the audio input device fails, `start()` catches
the exception, logs it via `logger.critical`, and returns normally — no
error reaches the caller, who can detect the failure only through
`is_listening`, which stays `false`. -/
theorem audiostream_start_failure (st : AudioState) (e : String)
    (h : st.is_listening = false) :
    AudioStream.start st (Except.error e) = (st, none, [StartLog.criticalFailed e]) := by
  simp [AudioStream.start, h]

/-- Witness for `audiostream_start_failure` at a concrete failing device. -/
theorem audiostream_start_failure_witness :
    AudioStream.start ⟨false⟩ (Except.error "device busy")
      = (⟨false⟩, none, [StartLog.criticalFailed "device busy"]) :=
  audiostream_start_failure ⟨false⟩ "device busy" rfl

/-- C3 counterexample: on a concrete device-open failure nothing propagates
to the caller of `start()` (the propagated-exception slot is `none`; the
failure is only logged critically), and `is_listening` stays `false`. -/
theorem audiostream_start_swallows_cex :
    (AudioStream.start ⟨false⟩ (Except.error "device open failed")).2.1 = none
    ∧ (AudioStream.start ⟨false⟩ (Except.error "device open failed")).1.is_listening = false
    ∧ (AudioStream.start ⟨false⟩ (Except.error "device open failed")).2.2
        = [StartLog.criticalFailed "device open failed"] :=
  ⟨rfl, rfl, rfl⟩

/-- C9: when `_is_running` holds, `shutdown()` tears the registry down in
reverse registration order, invoking every component's teardown exactly once
with its exception caught and recorded (so a failing teardown does not stop
the rest), clears `_is_running`, sets `_shutdown_event`, and a second
`shutdown()` on the resulting state is a no-op. -/
theorem lifecycle_shutdown_reverse_order (st : LMState) (h : st.is_running = true) :
    ((LifecycleManager.shutdown st).2).map Prod.fst = (st.components.map Component.id).reverse
    ∧ (∀ c ∈ st.components, (c.id, c.cleanupErr) ∈ (LifecycleManager.shutdown st).2)
    ∧ (LifecycleManager.shutdown st).1.is_running = false
    ∧ (LifecycleManager.shutdown st).1.shutdown_event = true
    ∧ LifecycleManager.shutdown (LifecycleManager.shutdown st).1
        = ((LifecycleManager.shutdown st).1, []) := by
  have hs : LifecycleManager.shutdown st
      = ({ components := st.components, is_running := false, shutdown_event := true },
         st.components.reverse.map teardownOne) := by
    unfold LifecycleManager.shutdown
    rw [if_pos h]
  rw [hs]
  refine ⟨?_, ?_, rfl, rfl, ?_⟩
  · rw [List.map_map, List.map_reverse]
    rfl
  · intro c hc
    exact List.mem_map_of_mem teardownOne (List.mem_reverse.mpr hc)
  · unfold LifecycleManager.shutdown
    rfl

/-- Witness for `lifecycle_shutdown_reverse_order`: two components
registered in order 1, 2 (the second with a failing teardown) are torn down
in the order 2, 1. -/
theorem lifecycle_shutdown_reverse_order_witness :
    (LifecycleManager.shutdown ⟨[⟨1, true, none⟩, ⟨2, true, some "boom"⟩], true, false⟩).2.map Prod.fst
      = [2, 1] :=
  ((lifecycle_shutdown_reverse_order ⟨[⟨1, true, none⟩, ⟨2, true, some "boom"⟩], true, false⟩
      rfl).1).trans (by decide)

/-- C10: starting from the constructor state, after any sequence of
registrations and before `wait_for_shutdown()` has run, `_is_running` is
still false, so a `system.shutdown` trigger makes `shutdown()` return
immediately: no component is torn down and `_shutdown_event` stays unset;
`wait_for_shutdown()` is what sets `_is_running`. -/
theorem lifecycle_no_teardown_before_wait (comps : List Component) :
    (comps.foldl LifecycleManager.register LifecycleManager.initState).is_running = false
    ∧ LifecycleManager.onShutdownSignal
        (comps.foldl LifecycleManager.register LifecycleManager.initState)
      = (comps.foldl LifecycleManager.register LifecycleManager.initState, [])
    ∧ (comps.foldl LifecycleManager.register LifecycleManager.initState).shutdown_event = false
    ∧ (LifecycleManager.waitForShutdownEntry
        (comps.foldl LifecycleManager.register LifecycleManager.initState)).is_running = true := by
  obtain ⟨h1, h2⟩ := foldl_register_flags comps LifecycleManager.initState
  have h1' : (comps.foldl LifecycleManager.register LifecycleManager.initState).is_running
      = false := h1
  have h2' : (comps.foldl LifecycleManager.register LifecycleManager.initState).shutdown_event
      = false := h2
  refine ⟨h1', ?_, h2', rfl⟩
  unfold LifecycleManager.onShutdownSignal LifecycleManager.shutdown
  rw [h1']
  rfl

/-- C2 (amended): for an utterance matching both a stop keyword and a
shutdown keyword, `ReflexController` publishes the MUTE signal and then
exactly one `system.shutdown` event and returns — its state is untouched
and no `state.arousal` event is published (the shutdown match returns
before the arousal evaluation).  `SensoryCortex`, however, processes the
same utterance independently: it forwards it as `input.user_message`
exactly when it has a wake keyword or the cortex is still inside its
timeout window, so the claimed absence of a cortex publish holds only
outside those conditions. -/
theorem reflex_shutdown_shortcircuit (st : ReflexState) (now : ℚ)
    (ev : TranscriptionEvent) (hne : ev.text ≠ "")
    (hstop : reflexStopMatch (lowerText ev.text.data) = true)
    (hexit : matchKeywords (lowerText ev.text.data) reflexExitZh reflexExitEn = true) :
    ReflexController.onAudioTranscription st now ev
      = (st, [ReflexOut.muteSignal, ReflexOut.shutdownEvent "voice_command"])
    ∧ ∀ cst : CortexState,
        ((SensoryCortex.onAudioTranscription cst now ev).2 ≠ [] ↔
          (matchKeywords ev.text.data cortexWakeZh cortexWakeEn = true
            ∨ now - cst.last_wake_time < wakeTimeout)) := by
  constructor
  · simp [ReflexController.onAudioTranscription, hne, hstop, hexit]
  · intro cst
    unfold SensoryCortex.onAudioTranscription
    rw [if_neg hne]
    by_cases hw : matchKeywords ev.text.data cortexWakeZh cortexWakeEn = true
    · simp [hw]
    · by_cases hwin : now - cst.last_wake_time < wakeTimeout
      · simp [hw, hwin]
      · simp [hw, hwin]

/-- Witness for `reflex_shutdown_shortcircuit` on the utterance
`"stop shutdown"` (stop keyword `stop`, shutdown keyword `shutdown`). -/
theorem reflex_shutdown_shortcircuit_witness :
    reflexStopMatch (lowerText (String.data "stop shutdown")) = true
    ∧ matchKeywords (lowerText (String.data "stop shutdown")) reflexExitZh reflexExitEn = true
    ∧ ReflexController.onAudioTranscription ⟨0, false⟩ 100 ⟨0, "stop shutdown"⟩
        = (⟨0, false⟩, [ReflexOut.muteSignal, ReflexOut.shutdownEvent "voice_command"]) :=
  ⟨by decide, by decide,
    (reflex_shutdown_shortcircuit ⟨0, false⟩ 100 ⟨0, "stop shutdown"⟩
      (by decide) (by decide) (by decide)).1⟩

/-- C2 counterexample: the utterance `"stop shutdown"` contains both a stop
keyword and a shutdown keyword, yet a `SensoryCortex` that is within its
timeout window (woken at 90, utterance at 100) still publishes
`input.user_message` for it — the claimed "no `input.user_message` for
every prior arousal state" is false. -/
theorem shutdown_utterance_cortex_forwards_cex :
    reflexStopMatch (lowerText (String.data "stop shutdown")) = true
    ∧ matchKeywords (lowerText (String.data "stop shutdown")) reflexExitZh reflexExitEn = true
    ∧ (SensoryCortex.onAudioTranscription ⟨90, true⟩ 100 ⟨0, "stop shutdown"⟩).2
        = [{ text := "stop shutdown", timestamp := 100, payloadSource := "audio",
             source := "SensoryCortex" }] := by
  refine ⟨by decide, by decide, ?_⟩
  have hne : ("stop shutdown" : String) ≠ "" := by decide
  have hw : matchKeywords (String.data "stop shutdown") cortexWakeZh cortexWakeEn = false := by
    decide
  have hwin : (100 : ℚ) - 90 < wakeTimeout := by norm_num [wakeTimeout]
  simp [SensoryCortex.onAudioTranscription, hne, hw, hwin]

/-- C4 (amended): in both components, each keyword class that goes through
`_match_keywords` (the wake and shutdown classes) matches case-insensitively
— lowering the text first changes nothing — and matches exactly when some
CJK-list keyword occurs as a plain substring of the lowered text or some
Latin-list keyword occurs delimited by word boundaries (so `hi` does not
match inside `history`), a match in either list sufficing.  The reflex
stop-keyword class, by contrast, is tested with plain substring containment
for every entry, so `stop` does match inside a longer word. -/
theorem keyword_matching_semantics (t : List Char) (zhList enList : List String) :
    matchKeywords (lowerText t) zhList enList = matchKeywords t zhList enList
    ∧ (matchKeywords t zhList enList = true ↔
        (∃ kw ∈ zhList, SubOccur kw.data (lowerText t))
        ∨ (∃ kw ∈ enList, BoundaryOccur kw.data (lowerText t)))
    ∧ (reflexStopMatch (lowerText t) = true ↔
        ∃ kw ∈ reflexStopKeywords, SubOccur kw.data (lowerText t)) := by
  refine ⟨matchKeywords_lower t zhList enList, ?_, ?_⟩
  · unfold matchKeywords
    simp only [Bool.or_eq_true, List.any_eq_true, hasSub_iff, boundarySearch_iff]
  · unfold reflexStopMatch
    simp only [List.any_eq_true, hasSub_iff]

/-- C4 counterexample: the utterance `"stopped"` contains `stop` only inside
a longer word (the word-boundary search rejects it), yet the reflex stop
check matches it and the MUTE signal is published; meanwhile the
word-boundary rule does hold for the wake class (`hi` does not match inside
`history`). -/
theorem stop_keyword_substring_cex :
    ReflexOut.muteSignal ∈ (ReflexController.onAudioTranscription reflexInit 100 ⟨0, "stopped"⟩).2
    ∧ boundarySearch (String.data "stop") (lowerText (String.data "stopped")) = false
    ∧ matchKeywords (String.data "history") reflexWakeZh reflexWakeEn = false := by
  refine ⟨?_, by decide, by decide⟩
  have hne : ("stopped" : String) ≠ "" := by decide
  have hstop : reflexStopMatch (lowerText (String.data "stopped")) = true := by decide
  have hexit : matchKeywords (lowerText (String.data "stopped")) reflexExitZh reflexExitEn
      = false := by decide
  have hwake : matchKeywords (lowerText (String.data "stopped")) reflexWakeZh reflexWakeEn
      = false := by decide
  simp [ReflexController.onAudioTranscription, hne, hstop, hexit, hwake]

/-- C5: `ReflexController` arousal policy for a non-empty utterance with no
shutdown keyword: a wake-keyword match leaves the controller awake with
`last_wake_time` refreshed to the current time; with no wake keyword the
controller is awake after processing iff `now - last_wake_time <
wake_timeout` (strictly), and `last_wake_time` is not refreshed. -/
theorem reflex_arousal_policy (st : ReflexState) (now : ℚ) (ev : TranscriptionEvent)
    (hne : ev.text ≠ "")
    (hexit : matchKeywords (lowerText ev.text.data) reflexExitZh reflexExitEn = false) :
    (matchKeywords (lowerText ev.text.data) reflexWakeZh reflexWakeEn = true →
      (ReflexController.onAudioTranscription st now ev).1.is_awake = true
      ∧ (ReflexController.onAudioTranscription st now ev).1.last_wake_time = now)
    ∧ (matchKeywords (lowerText ev.text.data) reflexWakeZh reflexWakeEn = false →
      ((ReflexController.onAudioTranscription st now ev).1.is_awake = true
          ↔ now - st.last_wake_time < wakeTimeout)
      ∧ (ReflexController.onAudioTranscription st now ev).1.last_wake_time
          = st.last_wake_time) := by
  constructor
  · intro hw
    simp [ReflexController.onAudioTranscription, hne, hexit, hw]
    norm_num [wakeTimeout]
  · intro hw
    simp [ReflexController.onAudioTranscription, hne, hexit, hw]

/-- Witness for `reflex_arousal_policy`: with the wake timer at 0 and
window 30, a plain utterance at t = 29 leaves the controller awake, one at
t = 31 leaves it asleep, and a wake utterance (`你好`) at t = 50 refreshes
the timer to 50. -/
theorem reflex_arousal_policy_witness :
    (ReflexController.onAudioTranscription ⟨0, true⟩ 29 ⟨0, "what"⟩).1.is_awake = true
    ∧ (ReflexController.onAudioTranscription ⟨0, true⟩ 31 ⟨0, "what"⟩).1.is_awake = false
    ∧ (ReflexController.onAudioTranscription ⟨0, false⟩ 50 ⟨0, "你好"⟩).1.last_wake_time = 50 := by
  refine ⟨?_, ?_, ?_⟩
  · exact ((reflex_arousal_policy ⟨0, true⟩ 29 ⟨0, "what"⟩ (by decide) (by decide)).2
      (by decide)).1.mpr (by norm_num [wakeTimeout])
  · have h := ((reflex_arousal_policy ⟨0, true⟩ 31 ⟨0, "what"⟩ (by decide) (by decide)).2
      (by decide)).1
    rw [← Bool.not_eq_true]
    intro hb
    have := h.mp hb
    norm_num [wakeTimeout] at this
  · exact ((reflex_arousal_policy ⟨0, false⟩ 50 ⟨0, "你好"⟩ (by decide) (by decide)).1
      (by decide)).2

/-- C6 (amended): a non-empty transcription with a wake keyword or arriving
inside the timeout window makes `SensoryCortex` awake, refreshes
`last_wake_time` to the current time in both cases (continuous refresh),
and republishes the utterance text as one `input.user_message` whose
payload timestamp is the cortex's processing time `now` — not the original
event's `timestamp` field, which is never read — with envelope source
`"SensoryCortex"` and payload source `"audio"`.  Outside the window with no
wake keyword nothing is forwarded and the cortex is not awake. -/
theorem cortex_forwarding (cst : CortexState) (now : ℚ) (ev : TranscriptionEvent)
    (hne : ev.text ≠ "") :
    (matchKeywords ev.text.data cortexWakeZh cortexWakeEn = true
        ∨ now - cst.last_wake_time < wakeTimeout →
      SensoryCortex.onAudioTranscription cst now ev
        = ({ last_wake_time := now, is_awake := true },
           [{ text := ev.text, timestamp := now, payloadSource := "audio",
              source := "SensoryCortex" }]))
    ∧ (matchKeywords ev.text.data cortexWakeZh cortexWakeEn = false →
        ¬ now - cst.last_wake_time < wakeTimeout →
      SensoryCortex.onAudioTranscription cst now ev
        = ({ cst with is_awake := false }, [])) := by
  constructor
  · rintro (hw | hwin)
    · simp [SensoryCortex.onAudioTranscription, hne, hw]
    · by_cases hw : matchKeywords ev.text.data cortexWakeZh cortexWakeEn = true
      · simp [SensoryCortex.onAudioTranscription, hne, hw]
      · simp [SensoryCortex.onAudioTranscription, hne, hw, hwin]
  · intro hw hwin
    simp [SensoryCortex.onAudioTranscription, hne, hw, hwin]

/-- Witness for `cortex_forwarding`: the wake utterance `你好` received at
time 7 is forwarded with payload timestamp 7 and the timer set to 7. -/
theorem cortex_forwarding_witness :
    SensoryCortex.onAudioTranscription ⟨0, false⟩ 7 ⟨5, "你好"⟩
      = (⟨7, true⟩,
         [{ text := "你好", timestamp := 7, payloadSource := "audio",
            source := "SensoryCortex" }]) :=
  (cortex_forwarding ⟨0, false⟩ 7 ⟨5, "你好"⟩ (by decide)).1 (Or.inl (by decide))

/-- C6 counterexample: the forwarded `input.user_message` for an original
event bearing timestamp 5 but processed at time 7 carries payload timestamp
7, not the original event's timestamp 5 — the republished event does not
carry the original timestamp. -/
theorem cortex_timestamp_cex :
    (SensoryCortex.onAudioTranscription ⟨0, false⟩ 7 ⟨5, "你好"⟩).2.map UserMessage.timestamp
      = [7]
    ∧ (⟨5, "你好"⟩ : TranscriptionEvent).timestamp = 5
    ∧ (7 : ℚ) ≠ 5 := by
  have hne : ("你好" : String) ≠ "" := by decide
  have hw : matchKeywords (String.data "你好") cortexWakeZh cortexWakeEn = true := by decide
  refine ⟨?_, rfl, by norm_num⟩
  simp [SensoryCortex.onAudioTranscription, hne, hw]

/-- The energy-gate comparison of the source, `rms < 800` for
`rms = sqrt(sumSq / len)`, is equivalent (for a nonempty segment) to the
rational inequality `sumSq < 640000 * len` used in the embedding. -/
theorem rms_lt_iff_sumSq (samples : List ℤ) (h : 0 < samples.length) :
    Real.sqrt ((sumSq samples : ℝ) / (samples.length : ℝ)) < 800
      ↔ sumSq samples < 640000 * samples.length := by
  have hl : (0 : ℝ) < (samples.length : ℝ) := by exact_mod_cast h
  rw [Real.sqrt_lt' (by norm_num : (0 : ℝ) < 800), div_lt_iff₀ hl]
  constructor
  · intro hx
    have : (sumSq samples : ℝ) < 640000 * samples.length := by
      calc (sumSq samples : ℝ) < 800 ^ 2 * samples.length := hx
        _ = 640000 * samples.length := by norm_num
    exact_mod_cast this
  · intro hx
    have : (sumSq samples : ℝ) < 640000 * samples.length := by exact_mod_cast hx
    calc (sumSq samples : ℝ) < 640000 * samples.length := this
      _ = 800 ^ 2 * samples.length := by norm_num

/-- C7: segment finalization drops a segment silently — the recognizer is
never called and no event is published (`processSpeech = none`) — exactly
when it is shorter than the 9600-byte minimum-duration threshold (each
int16 sample is 2 bytes) or its energy is below the RMS floor 800 (phrased
as the equivalent squared inequality); the constants come from
`16000 Hz × 2 bytes × 0.3 s` and `800²`.  The length gate is tested first,
before any energy computation. -/
theorem audio_finalization_gates (samples : List ℤ) :
    (AudioStream.processSpeech samples = none ↔
      2 * samples.length < 9600 ∨ sumSq samples < 640000 * samples.length)
    ∧ (9600 : ℚ) = 16000 * 2 * (3/10) ∧ (640000 : ℚ) = 800 ^ 2 := by
  refine ⟨?_, by norm_num, by norm_num⟩
  unfold AudioStream.processSpeech
  split_ifs with h1 h2
  · simp [h1]
  · simp [h1, h2]
  · simp [h1, h2]

/-- C8 (amended): three-band normalization over the peak `p = peakAbs xs`:
below 0.1 the waveform is untouched; in `[0.1, 0.5)` every sample is scaled
by `min(0.7 / p, 2)`, a gain that never exceeds 2; at `p ≥ 0.5` the
waveform is rescaled so that the output peak is exactly 0.95 (for
`0.5 ≤ p < 0.95` this gain exceeds 1, so it is a scale-up, not a
scale-down); in every band the output peak never exceeds 1. -/
theorem normalize_three_band (xs : List ℚ) :
    (peakAbs xs < 1/10 → normalizeWaveform xs = xs)
    ∧ (1/10 ≤ peakAbs xs → peakAbs xs < 1/2 →
        normalizeWaveform xs = xs.map (fun x => x * min (7/10 / peakAbs xs) 2)
        ∧ min (7/10 / peakAbs xs) 2 ≤ 2)
    ∧ (1/2 ≤ peakAbs xs → peakAbs (normalizeWaveform xs) = 19/20)
    ∧ peakAbs (normalizeWaveform xs) ≤ 1 := by
  by_cases h1 : peakAbs xs < 1/10
  · have heq : normalizeWaveform xs = xs := by
      unfold normalizeWaveform
      rw [if_pos h1]
    refine ⟨fun _ => heq, fun ha _ => absurd h1 (not_lt.mpr ha),
      fun hb => absurd h1 (not_lt.mpr (le_trans (by norm_num) hb)), ?_⟩
    rw [heq]
    exact le_trans h1.le (by norm_num)
  · by_cases h2 : peakAbs xs < 1/2
    · have hp10 : 1/10 ≤ peakAbs xs := not_lt.mp h1
      have hp : 0 < peakAbs xs := lt_of_lt_of_le (by norm_num) hp10
      have heq : normalizeWaveform xs = xs.map (fun x => x * min (7/10 / peakAbs xs) 2) := by
        unfold normalizeWaveform
        rw [if_neg h1, if_pos h2]
      have hg0 : 0 ≤ min (7/10 / peakAbs xs) 2 :=
        le_min (le_of_lt (div_pos (by norm_num) hp)) (by norm_num)
      have hpk : peakAbs (normalizeWaveform xs) ≤ 7/10 := by
        rw [heq, peakAbs_map_mul, abs_of_nonneg hg0]
        calc min (7/10 / peakAbs xs) 2 * peakAbs xs
            ≤ (7/10 / peakAbs xs) * peakAbs xs :=
              mul_le_mul_of_nonneg_right (min_le_left _ _) (peakAbs_nonneg xs)
          _ = 7/10 := div_mul_cancel₀ _ (ne_of_gt hp)
      exact ⟨fun hc => absurd hc h1, fun _ _ => ⟨heq, min_le_right _ _⟩,
        fun hb => absurd h2 (not_lt.mpr hb), le_trans hpk (by norm_num)⟩
    · have hp12 : 1/2 ≤ peakAbs xs := not_lt.mp h2
      have hp : 0 < peakAbs xs := lt_of_lt_of_le (by norm_num) hp12
      have hmap : xs.map (fun x => x / peakAbs xs * (19/20))
          = xs.map (fun x => x * (19/20 / peakAbs xs)) := by
        apply List.map_congr_left
        intro x _
        rw [div_mul_eq_mul_div, mul_div_assoc]
      have heq : peakAbs (normalizeWaveform xs) = 19/20 := by
        unfold normalizeWaveform
        rw [if_neg h1, if_neg h2, hmap, peakAbs_map_mul,
          abs_of_pos (div_pos (by norm_num) hp), div_mul_cancel₀ _ (ne_of_gt hp)]
      exact ⟨fun hc => absurd hc h1, fun _ hc => absurd hc h2, fun _ => heq,
        by rw [heq]; norm_num⟩

/-- Witness for `normalize_three_band`: a waveform with peak 0.3 (middle
band) gets the capped gain 2, yielding peak 0.6 ≤ 1. -/
theorem normalize_three_band_witness :
    normalizeWaveform [(3/10 : ℚ)] = [3/5]
    ∧ peakAbs (normalizeWaveform [(3/10 : ℚ)]) ≤ 1 := by
  have hpk : peakAbs [(3/10 : ℚ)] = 3/10 := by
    norm_num [peakAbs]
  have h := (normalize_three_band [(3/10 : ℚ)]).2.1 (by rw [hpk]; norm_num)
    (by rw [hpk]; norm_num)
  refine ⟨?_, (normalize_three_band [(3/10 : ℚ)]).2.2.2⟩
  rw [h.1, hpk]
  have hmin : min ((7:ℚ)/10 / (3/10)) 2 = 2 := by
    rw [min_eq_right]
    norm_num
  rw [List.map_cons, List.map_nil, hmin]
  norm_num

/-- C8 counterexample: the single-sample waveform `[0.6]` lies in the high
band (`p = 0.6 ≥ 0.5`), and normalization rescales it to `[0.95]` — the
peak increases from 0.6 to 0.95, so the high band is not a scale-down. -/
theorem normalize_high_band_scales_up_cex :
    (1/2 : ℚ) ≤ peakAbs [(3/5 : ℚ)]
    ∧ normalizeWaveform [(3/5 : ℚ)] = [19/20]
    ∧ peakAbs [(3/5 : ℚ)] < peakAbs (normalizeWaveform [(3/5 : ℚ)]) := by
  have h1 : peakAbs [(3/5 : ℚ)] = 3/5 := by norm_num [peakAbs]
  have h2 : normalizeWaveform [(3/5 : ℚ)] = [19/20] := by
    have hpk : peakAbs [(3/5 : ℚ)] = 3/5 := by norm_num [peakAbs]
    unfold normalizeWaveform
    rw [hpk, if_neg (by norm_num), if_neg (by norm_num)]
    rw [List.map_cons, List.map_nil]
    norm_num
  refine ⟨by rw [h1]; norm_num, h2, ?_⟩
  rw [h1, h2]
  have habs : |((19 : ℚ)/20)| = 19/20 := abs_of_nonneg (by norm_num)
  norm_num [peakAbs, habs]
